import Mathlib

set_option linter.unusedVariables false

/-
Verification of the Regulium-Z compliance-evaluation pipeline.

This file gives a shallow embedding of the backend evaluation pipeline:

* the dynamic JSON values handled by the JavaScript runtime (`JsonValue`)
  together with an executable model of `JSON.parse`;
* the response-parsing and fallback policy of the Pair Evaluator
  (`parseGPTResponseCore`, two instantiations: the copy at
  `src/backend/src/services/complianceChecker.ts` and the variant kept as
  `src/unnamed/part_004`, which differ only in the `validStatuses` literal);
* the Relevance Screener (`screenLawsForRelevance`, `parseRelevanceResponse`);
* the aggregation code (`checkCompliance`, `calculateRiskScore`, and the
  single-feature discovery endpoint of `src/backend/src/routes/api.ts`);
* the catalog store operations `addFeature` / `getFeatureByName`
  (`src/unnamed/part_001`) and the correction-store query
  `getCorrectionsForCompliance` (`src/unnamed/part_002`).

External effects are made explicit: the outcome of one call to the external
model is a `ModelBehavior` value (either a thrown failure, covering network
errors, non-2xx statuses and unreadable bodies, or a successfully extracted
content string, possibly empty); file writes are represented by a boolean
outcome; console logging and timestamps are omitted as pure observers.
-/

namespace RegZ

/-- Feature record (a `features.csv` row; `backend/src/types`). -/
structure Feature where
  feature_name : String
  feature_description : String
deriving DecidableEq

/-- Law record (a `laws.csv` row); `country-region` is renamed
`countryRegion` because Lean identifiers cannot contain a dash. -/
structure Law where
  index : String
  law_description : String
  law_title : String
  countryRegion : String
deriving DecidableEq

/-- Stored correction / feedback item of the Correction Store
(`feedbackHandler.ts`, kept as `src/unnamed/part_002`). -/
structure Correction where
  id : String
  feature_id : String
  law_id : String
  feedback_type : String
  message : String
  status : String
deriving DecidableEq

/-- Request options of a compliance check (`ComplianceCheckRequest` in
`backend/src/types`); the two boolean flags model JavaScript truthiness of
the optional fields. -/
structure ComplianceCheckRequest where
  features : Option (List String)
  laws : Option (List String)
  include_abbreviations : Bool
  include_corrections : Bool
deriving DecidableEq

/-- Outcome of one call to the external model, as observed by the
`try`-block of the caller: `failure` covers every throwing step (network
error, non-2xx response with its synthesized error, unreadable body JSON);
`ok content` is a completed call whose extracted message content is
`content` (the code uses `completion.choices?.[0]?.message?.content || ''`,
so a missing content field arrives here as the empty string). -/
inductive ModelBehavior where
  | failure (msg : String)
  | ok (content : String)
deriving DecidableEq

/-! ## JavaScript string helpers -/

/-- Whitespace recognized by the JavaScript `trim` and `\s` class
(ASCII part, which is what the data in this system uses). -/
def jsWsChar (c : Char) : Bool :=
  c = ' ' || c = '\t' || c = '\n' || c = '\r' || c = '\x0b' || c = '\x0c'

/-- Model of `String.prototype.trim`. -/
def trimJS (s : String) : String :=
  String.mk (((s.data.dropWhile jsWsChar).reverse.dropWhile jsWsChar).reverse)

/-- ASCII lower-casing of one character (model of `toLowerCase` on the
ASCII data this system handles). -/
def lowerChar (c : Char) : Char :=
  if 'A' ≤ c ∧ c ≤ 'Z' then Char.ofNat (c.toNat + 32) else c

/-- Model of `String.prototype.toLowerCase`. -/
def lowerStr (s : String) : String :=
  String.mk (s.data.map lowerChar)

/-- Boolean prefix test on character lists. -/
def charsStartWith : List Char → List Char → Bool
  | [], _ => true
  | _ :: _, [] => false
  | a :: as, b :: bs => a = b && charsStartWith as bs

/-- Boolean contiguous-substring test on character lists. -/
def listIsSub (needle : List Char) : List Char → Bool
  | [] => charsStartWith needle []
  | c :: rest => charsStartWith needle (c :: rest) || listIsSub needle rest

/-- Model of `a.includes(b)`: `b` occurs as a contiguous substring of `a`. -/
def strContains (hay needle : String) : Bool :=
  listIsSub needle.data hay.data

/-- Model of `Array.prototype.join(sep)` for string arrays. -/
def joinWith (sep : String) : List String → String
  | [] => ""
  | [a] => a
  | a :: b :: rest => a ++ sep ++ joinWith sep (b :: rest)

/-- Model of `Math.round (num / den)` for natural `num` and positive `den`:
round half up, computed by integer division (the lemma `roundRatio_eq_floor`
below states the usual floor characterization). -/
def roundRatio (num den : ℕ) : ℤ := ((2 * num + den) / (2 * den) : ℕ)

/-! ## Dynamic JSON values and `JSON.parse` -/

/-- Dynamic value produced by `JSON.parse`. A numeral is kept exactly as
`mantissa * 10 ^ exp10` (every JSON numeral denotes such a rational). -/
inductive JsonValue where
  | null
  | bool (b : Bool)
  | num (mantissa : ℤ) (exp10 : ℤ)
  | str (s : String)
  | arr (elems : List JsonValue)
  | obj (fields : List (String × JsonValue))

/-- JavaScript truthiness of a field-lookup result: an absent field,
`null`, `false`, `0` and the empty string are falsy. -/
def jsTruthy : Option JsonValue → Bool
  | none => false
  | some .null => false
  | some (.bool b) => b
  | some (.num m _) => m ≠ 0
  | some (.str s) => s ≠ ""
  | some (.arr _) => true
  | some (.obj _) => true

/-- Object property lookup; with duplicate keys `JSON.parse` keeps the last
binding, so the lookup scans from the right. -/
def objLookup (fields : List (String × JsonValue)) (key : String) : Option JsonValue :=
  (fields.reverse.find? (fun kv => kv.1 = key)).map (·.2)

/-- Whitespace accepted between JSON tokens. -/
def jsonWsChar (c : Char) : Bool :=
  c = ' ' || c = '\t' || c = '\n' || c = '\r'

/-- Drop inter-token whitespace. -/
def skipWs (cs : List Char) : List Char := cs.dropWhile jsonWsChar

/-- Value of a hexadecimal digit. -/
def hexVal (c : Char) : Option Nat :=
  if '0' ≤ c ∧ c ≤ '9' then some (c.toNat - 48)
  else if 'a' ≤ c ∧ c ≤ 'f' then some (c.toNat - 87)
  else if 'A' ≤ c ∧ c ≤ 'F' then some (c.toNat - 55)
  else none

/-- Body of a JSON string literal (after the opening quote): returns the
decoded characters and the input following the closing quote. -/
def strBody : Nat → List Char → Option (List Char × List Char)
  | 0, _ => none
  | _ + 1, [] => none
  | fuel + 1, c :: rest =>
    if c = '"' then some ([], rest)
    else if c = '\\' then
      match rest with
      | [] => none
      | e :: rest2 =>
        if e = '"' then (strBody fuel rest2).map (fun p => ('"' :: p.1, p.2))
        else if e = '\\' then (strBody fuel rest2).map (fun p => ('\\' :: p.1, p.2))
        else if e = '/' then (strBody fuel rest2).map (fun p => ('/' :: p.1, p.2))
        else if e = 'b' then (strBody fuel rest2).map (fun p => ('\x08' :: p.1, p.2))
        else if e = 'f' then (strBody fuel rest2).map (fun p => ('\x0c' :: p.1, p.2))
        else if e = 'n' then (strBody fuel rest2).map (fun p => ('\n' :: p.1, p.2))
        else if e = 'r' then (strBody fuel rest2).map (fun p => ('\r' :: p.1, p.2))
        else if e = 't' then (strBody fuel rest2).map (fun p => ('\t' :: p.1, p.2))
        else if e = 'u' then
          match rest2 with
          | a :: b :: c2 :: d :: rest3 =>
            match hexVal a, hexVal b, hexVal c2, hexVal d with
            | some ha, some hb, some hc, some hd =>
              (strBody fuel rest3).map
                (fun p => (Char.ofNat (((ha * 16 + hb) * 16 + hc) * 16 + hd) :: p.1, p.2))
            | _, _, _, _ => none
          | _ => none
        else none
    else (strBody fuel rest).map (fun p => (c :: p.1, p.2))

/-- Numeric value of a digit run. -/
def digitsVal (ds : List Char) : Nat :=
  ds.foldl (fun n d => n * 10 + (d.toNat - 48)) 0

/-- Parse a JSON numeral (`-? int frac? exp?`) into its exact value
`mantissa * 10 ^ exp10`. -/
def parseNum (cs : List Char) : Option ((ℤ × ℤ) × List Char) :=
  let (neg, cs1) := match cs with
    | '-' :: r => (true, r)
    | _ => (false, cs)
  match cs1.span (·.isDigit) with
  | ([], _) => none
  | (ip, cs2) =>
    if 2 ≤ ip.length ∧ ip.headD '0' = '0' then none
    else
      let step2 : Option (List Char × List Char) := match cs2 with
        | '.' :: r =>
          (match r.span (·.isDigit) with
           | ([], _) => none
           | (fd, r2) => some (fd, r2))
        | _ => some ([], cs2)
      match step2 with
      | none => none
      | some (fd, cs3) =>
        let step3 : Option (Bool × List Char × List Char) := match cs3 with
          | 'e' :: r | 'E' :: r =>
            (match r with
             | '+' :: r2 =>
               (match r2.span (·.isDigit) with
                | ([], _) => none
                | (ed, r3) => some (false, ed, r3))
             | '-' :: r2 =>
               (match r2.span (·.isDigit) with
                | ([], _) => none
                | (ed, r3) => some (true, ed, r3))
             | _ =>
               (match r.span (·.isDigit) with
                | ([], _) => none
                | (ed, r3) => some (false, ed, r3)))
          | _ => some (false, [], cs3)
        match step3 with
        | none => none
        | some (eneg, ed, rest) =>
          let mantNat : ℕ := digitsVal ip * 10 ^ fd.length + digitsVal fd
          let mant : ℤ := if neg then -(mantNat : ℤ) else (mantNat : ℤ)
          let e : ℤ :=
            (if eneg then -(digitsVal ed : ℤ) else (digitsVal ed : ℤ)) - (fd.length : ℤ)
          some ((mant, e), rest)

/-- One pass of the array-element loop; `pv` parses one value. -/
def itemsLoop (pv : List Char → Option (JsonValue × List Char)) :
    Nat → List Char → Option (List JsonValue × List Char)
  | 0, _ => none
  | fuel + 1, cs =>
    match pv cs with
    | none => none
    | some (v, r) =>
      match skipWs r with
      | ',' :: r2 => (itemsLoop pv fuel r2).map (fun p => (v :: p.1, p.2))
      | ']' :: r2 => some ([v], r2)
      | _ => none

/-- One pass of the object-member loop; `pv` parses one value. -/
def fieldsLoop (pv : List Char → Option (JsonValue × List Char)) :
    Nat → List Char → Option (List (String × JsonValue) × List Char)
  | 0, _ => none
  | fuel + 1, cs =>
    match skipWs cs with
    | '"' :: r =>
      match strBody (r.length + 1) r with
      | none => none
      | some (key, r2) =>
        match skipWs r2 with
        | ':' :: r3 =>
          (match pv r3 with
           | none => none
           | some (v, r4) =>
             match skipWs r4 with
             | ',' :: r5 =>
               (fieldsLoop pv fuel r5).map (fun p => ((String.mk key, v) :: p.1, p.2))
             | '}' :: r5 => some ([(String.mk key, v)], r5)
             | _ => none)
        | _ => none
    | _ => none

/-- Recursive JSON value grammar, with fuel bounding the nesting depth. -/
def parseValue : Nat → List Char → Option (JsonValue × List Char)
  | 0, _ => none
  | fuel + 1, cs =>
    match skipWs cs with
    | '"' :: rest =>
      (strBody (rest.length + 1) rest).map (fun p => (JsonValue.str (String.mk p.1), p.2))
    | 't' :: 'r' :: 'u' :: 'e' :: rest => some (JsonValue.bool true, rest)
    | 'f' :: 'a' :: 'l' :: 's' :: 'e' :: rest => some (JsonValue.bool false, rest)
    | 'n' :: 'u' :: 'l' :: 'l' :: rest => some (JsonValue.null, rest)
    | '[' :: rest =>
      (match skipWs rest with
       | ']' :: rest2 => some (JsonValue.arr [], rest2)
       | _ => (itemsLoop (parseValue fuel) (rest.length + 1) rest).map
           (fun p => (JsonValue.arr p.1, p.2)))
    | '{' :: rest =>
      (match skipWs rest with
       | '}' :: rest2 => some (JsonValue.obj [], rest2)
       | _ => (fieldsLoop (parseValue fuel) (rest.length + 1) rest).map
           (fun p => (JsonValue.obj p.1, p.2)))
    | other => (parseNum other).map (fun p => (JsonValue.num p.1.1 p.1.2, p.2))

/-- Model of `JSON.parse`: the whole input (up to surrounding whitespace)
must be one JSON value, otherwise the call throws — represented as `none`. -/
def jsonParse (s : String) : Option JsonValue :=
  match parseValue (s.length + 1) s.data with
  | some (v, rest) => if skipWs rest = [] then some v else none
  | none => none

/-! ## Response cleaning shared by the Pair Evaluator and the Screener -/

/-- Drop leading JavaScript whitespace (the `\s*` after a code fence). -/
def dropLeadingWs (s : String) : String :=
  String.mk (s.data.dropWhile jsWsChar)

/-- Model of `.replace(/\s*` ``` `$/, '')`: if the string ends in three
backticks, drop them together with the maximal run of whitespace before
them; otherwise leave the string unchanged. -/
def stripTrailingFence (t : String) : String :=
  if charsStartWith "```".data.reverse t.data.reverse then
    String.mk (((t.data.reverse.drop 3).dropWhile jsWsChar).reverse)
  else t

/-- Markdown code-fence removal of `parseGPTResponse` and
`parseRelevanceResponse` (the two `replace` calls on `cleanResponse`). -/
def stripFences (s : String) : String :=
  if charsStartWith "```json".data s.data then
    stripTrailingFence (dropLeadingWs (String.mk (s.data.drop 7)))
  else if charsStartWith "```".data s.data then
    stripTrailingFence (dropLeadingWs (String.mk (s.data.drop 3)))
  else s

/-- Model of the greedy regex `/\x7b[\s\S]*\x7d/` (and its bracket twin):
the segment from the first opening delimiter to the last closing delimiter,
provided the latter comes strictly after the former. -/
def extractDelim (openC closeC : Char) (cs : List Char) : Option (List Char) :=
  match cs.findIdx? (· = openC), cs.reverse.findIdx? (· = closeC) with
  | some i, some rj =>
    let j := cs.length - 1 - rj
    if i < j then some ((cs.drop i).take (j - i + 1)) else none
  | _, _ => none

/-! ## Pair Evaluator (`parseGPTResponse`, `checkFeatureCompliance`)

The two copies of the checker — `src/backend/src/services/complianceChecker.ts`
and `src/unnamed/part_004` — have identical `checkFeatureCompliance`,
`buildCompliancePrompt` and `calculateRiskScore` bodies and differ in
`parseGPTResponse` only in the `validStatuses` literal, so the parsing
pipeline is defined once, parameterized by that literal. -/

/-- Verdict record (`ComplianceResult` in `backend/src/types`). The
`reasoning` and `recommendations` fields are filled from dynamically typed
JSON data on the success path, so they keep the dynamic type. -/
structure ComplianceResult where
  feature_name : String
  law_title : String
  law_description : String
  compliance_status : String
  reasoning : JsonValue
  recommendations : List JsonValue

/-- Fallback verdict of the `catch` block of `checkFeatureCompliance`
(model-call failure). -/
def errorFallback (feature : Feature) (law : Law) : ComplianceResult :=
  { feature_name := feature.feature_name
    law_title := law.law_title
    law_description := law.law_description
    compliance_status := "requires_review"
    reasoning := .str "Error occurred during compliance check. Manual review required."
    recommendations := [.str "Review the feature implementation manually",
      .str "Check system logs for errors"] }

/-- Fallback verdict of the final `return` of `parseGPTResponse`
(response-parse failure). -/
def parseFallback (feature : Feature) (law : Law) : ComplianceResult :=
  { feature_name := feature.feature_name
    law_title := law.law_title
    law_description := law.law_description
    compliance_status := "requires_review"
    reasoning := .str "Response parsing failed. Manual review required."
    recommendations := [.str "Review the feature implementation manually",
      .str "Check compliance requirements"] }

/-- Steps of `parseGPTResponse` up to the required-field validation: trim,
strip fences, extract the greedy brace segment, `JSON.parse` it, and demand
the three keys `compliance_status`, `reasoning`, `recommendations` all
truthy. `none` means the code falls through to the parse-failure fallback
(no JSON found, `JSON.parse` threw, or a required field missing/falsy). -/
def extractCandidate (response : String) : Option (JsonValue × JsonValue × JsonValue) :=
  let clean := stripFences (trimJS response)
  match extractDelim '{' '}' clean.data with
  | none => none
  | some seg =>
    match jsonParse (String.mk seg) with
    | none => none
    | some (.obj fields) =>
      let st := objLookup fields "compliance_status"
      let re := objLookup fields "reasoning"
      let rc := objLookup fields "recommendations"
      if jsTruthy st && jsTruthy re && jsTruthy rc then
        match st, re, rc with
        | some a, some b, some c => some (a, b, c)
        | _, _, _ => none
      else none
    | some _ => none

/-- Enum validation of `parseGPTResponse`: a status that is not a string of
the `validStatuses` list is overwritten with `requires_review`
(`validStatuses.includes` uses strict equality, so a non-string never
passes). -/
def coerceStatus (validStatuses : List String) : JsonValue → String
  | .str s => if validStatuses.contains s then s else "requires_review"
  | _ => "requires_review"

/-- Model of `parseGPTResponse(response, feature, law)`, parameterized by
the file variant of the `validStatuses` literal. -/
def parseGPTResponseCore (validStatuses : List String) (response : String)
    (feature : Feature) (law : Law) : ComplianceResult :=
  match extractCandidate response with
  | some (st, re, rc) =>
    { feature_name := feature.feature_name
      law_title := law.law_title
      law_description := law.law_description
      compliance_status := coerceStatus validStatuses st
      reasoning := re
      recommendations := match rc with
        | .arr xs => xs
        | _ => [.str "Review implementation manually"] }
  | none => parseFallback feature law

/-- Model of `checkFeatureCompliance(feature, law, request)` given the
outcome of the one external-model call: every throwing step lands in the
`catch` block (error fallback), a completed call has its content parsed.
The prompt sent to the model is `evaluationPrompt` below; the verdict
depends on the call outcome only. -/
def checkFeatureComplianceCore (validStatuses : List String) (feature : Feature)
    (law : Law) (request : ComplianceCheckRequest) (store : List Correction)
    (behavior : ModelBehavior) : ComplianceResult :=
  match behavior with
  | .failure _ => errorFallback feature law
  | .ok content => parseGPTResponseCore validStatuses content feature law

/-! ## Correction store and prompt construction -/

/-- Model of `FeedbackHandler.getCorrectionsForCompliance(featureId, lawId)`
(`src/unnamed/part_002`), with the stored corrections list made explicit. -/
def getCorrectionsForCompliance (corrections : List Correction)
    (featureId lawId : String) : List Correction :=
  corrections.filter (fun c =>
    c.feature_id == featureId && c.law_id == lawId && c.status == "implemented")

/-- Corrections context assembled at the top of `checkFeatureCompliance`:
empty unless corrections are requested and at least one implemented
correction matches the pair. -/
def correctionsContext (request : ComplianceCheckRequest) (store : List Correction)
    (feature : Feature) (law : Law) : String :=
  if request.include_corrections then
    let corrections := getCorrectionsForCompliance store feature.feature_name law.law_title
    if corrections.length > 0 then
      "\n\nPrevious corrections for this feature-law combination:\n" ++
        joinWith "\n" (corrections.map (fun c => "- " ++ c.message))
    else ""
  else ""

/-- Model of `buildCompliancePrompt(feature, law, correctionsContext)`
(template of the backend checker and `part_004`, which agree). Literal
braces and apostrophes are written with `\x` escapes. -/
def buildCompliancePrompt (feature : Feature) (law : Law) (correctionsCtx : String) : String :=
  "Feature: " ++ feature.feature_name ++
  "\nDescription: " ++ feature.feature_description ++
  "\n\nLaw: " ++ law.law_title ++
  "\nDescription: " ++ law.law_description ++
  "\n\n" ++ correctionsCtx ++
  "\n\nAnalyze the compliance of this feature against the law. Consider:\n" ++
  "1. Does the feature implementation align with the law\x27s requirements?\n" ++
  "2. Are there any potential violations or compliance gaps?\n" ++
  "3. What specific aspects need attention?\n\n" ++
  "Respond in this exact JSON format:\n" ++
  "\x7b\n" ++
  "  \"compliance_status\": \"compliant|non_compliant|requires_review\",\n" ++
  "  \"reasoning\": \"Detailed explanation of compliance assessment\",\n" ++
  "  \"recommendations\": [\"Specific action item 1\", \"Specific action item 2\", \"Specific action item 3\"]\n" ++
  "\x7d\n\n" ++
  "Ensure the response is valid JSON with no additional text before or after."

/-- The full prompt built by one `checkFeatureCompliance` call (lines
115–126 of the checker). -/
def evaluationPrompt (feature : Feature) (law : Law) (request : ComplianceCheckRequest)
    (store : List Correction) : String :=
  buildCompliancePrompt feature law (correctionsContext request store feature law)

/-! ## Aggregation -/

/-- Model of `calculateRiskScore` (identical in both checker copies); the
`totalLaws` argument is unused, exactly as in the source. -/
def calculateRiskScore (compliantCount nonCompliantCount reviewRequiredCount totalLaws : ℕ) : ℤ :=
  let totalChecks := compliantCount + nonCompliantCount + reviewRequiredCount
  if totalChecks = 0 then 0
  else roundRatio (100 * (nonCompliantCount + reviewRequiredCount)) totalChecks

/-- Summary block of a compliance response; `relevant_laws` is present only
in the shapes that include it (`none` where the source omits the field). -/
structure ComplianceSummary where
  total_features : ℕ
  total_laws : ℕ
  relevant_laws : Option ℕ
  compliant_count : ℕ
  non_compliant_count : ℕ
  review_required_count : ℕ
  overall_risk_score : ℤ

/-- Compliance response (`results` plus `summary`; the wall-clock
`timestamp` field is omitted from the embedding). -/
structure ComplianceCheckResponse where
  results : List ComplianceResult
  summary : ComplianceSummary

/-- The `validStatuses` literal of `src/backend/src/services/complianceChecker.ts`. -/
def CheckerBackend.validStatuses : List String :=
  ["compliant", "non_compliant", "requires_review"]

/-- The `validStatuses` literal of `src/unnamed/part_004`. -/
def Checker004.validStatuses : List String :=
  ["compliant", "non-compliant", "requires_review"]

/-- The `parseGPTResponse` of `src/backend/src/services/complianceChecker.ts`. -/
def CheckerBackend.parseGPTResponse (response : String) (feature : Feature) (law : Law) :
    ComplianceResult :=
  parseGPTResponseCore CheckerBackend.validStatuses response feature law

/-- The `parseGPTResponse` of `src/unnamed/part_004`. -/
def Checker004.parseGPTResponse (response : String) (feature : Feature) (law : Law) :
    ComplianceResult :=
  parseGPTResponseCore Checker004.validStatuses response feature law

/-- The `checkFeatureCompliance` of `src/backend/src/services/complianceChecker.ts`. -/
def CheckerBackend.checkFeatureCompliance (feature : Feature) (law : Law)
    (request : ComplianceCheckRequest) (store : List Correction)
    (behavior : ModelBehavior) : ComplianceResult :=
  checkFeatureComplianceCore CheckerBackend.validStatuses feature law request store behavior

/-- The `checkFeatureCompliance` of `src/unnamed/part_004`. -/
def Checker004.checkFeatureCompliance (feature : Feature) (law : Law)
    (request : ComplianceCheckRequest) (store : List Correction)
    (behavior : ModelBehavior) : ComplianceResult :=
  checkFeatureComplianceCore Checker004.validStatuses feature law request store behavior

/-- Model of `checkCompliance(request)` of
`src/backend/src/services/complianceChecker.ts`: resolve the target
feature/law lists, evaluate the cross product (features outer, laws inner),
count statuses with the `switch` whose cases are the literals `compliant`,
`non-compliant` and `requires_review`, and build the summary. The
`behave` argument gives the external model outcome of each pair call;
`.error` models the thrown exception when a catalog side is empty. -/
def CheckerBackend.checkCompliance (laws : List Law) (features : List Feature)
    (request : ComplianceCheckRequest) (store : List Correction)
    (behave : Feature → Law → ModelBehavior) : Except String ComplianceCheckResponse :=
  if laws.length = 0 ∨ features.length = 0 then
    .error "No laws or features found. Please check your data files."
  else
    let targetFeatures := match request.features with
      | some fs => features.filter (fun (f : Feature) => fs.contains f.feature_name)
      | none => features
    let targetLaws := match request.laws with
      | some ls => laws.filter (fun (l : Law) => ls.contains l.law_title)
      | none => laws
    let results := targetFeatures.flatMap (fun f => targetLaws.map (fun l =>
      CheckerBackend.checkFeatureCompliance f l request store (behave f l)))
    let compliantCount := (results.filter (fun r => r.compliance_status == "compliant")).length
    let nonCompliantCount := (results.filter (fun r => r.compliance_status == "non-compliant")).length
    let reviewRequiredCount := (results.filter (fun r => r.compliance_status == "requires_review")).length
    .ok
      { results := results
        summary :=
          { total_features := targetFeatures.length
            total_laws := targetLaws.length
            relevant_laws := none
            compliant_count := compliantCount
            non_compliant_count := nonCompliantCount
            review_required_count := reviewRequiredCount
            overall_risk_score :=
              calculateRiskScore compliantCount nonCompliantCount reviewRequiredCount
                targetLaws.length } }

/-! ## Relevance Screener (`src/unnamed/part_004`) -/

/-- One left-to-right pass of the global regex `/"([^"]+)"/g` with the
per-match `replace(/"/g, '')`: collect the maximal double-quoted nonempty
runs. -/
def quotedRuns : Nat → List Char → List String
  | 0, _ => []
  | _ + 1, [] => []
  | fuel + 1, c :: rest =>
    if c = '"' then
      match rest.span (· ≠ '"') with
      | (body, closing) =>
        match closing with
        | '"' :: rest2 =>
          if body.isEmpty then quotedRuns fuel rest
          else String.mk body :: quotedRuns fuel rest2
        | _ => quotedRuns fuel rest
    else quotedRuns fuel rest

/-- Model of `parseRelevanceResponse(response)`: strip fences, extract the
greedy bracket segment, JSON-decode it and keep the string elements; when
no bracket segment exists, fall back to quoted substrings; when decoding
throws or nothing matches, return the empty list. -/
def parseRelevanceResponse (response : String) : List String :=
  let clean := stripFences (trimJS response)
  match extractDelim '[' ']' clean.data with
  | some seg =>
    match jsonParse (String.mk seg) with
    | some (.arr items) =>
      items.filterMap (fun v => match v with | .str s => some s | _ => none)
    | some _ =>
      let runs := quotedRuns (clean.data.length + 1) clean.data
      runs
    | none => []
  | none =>
    let runs := quotedRuns (clean.data.length + 1) clean.data
    runs

/-- Model of `screenLawsForRelevance(feature, allLaws)` given the one
external-model call outcome: any throwing step fails open (all catalog
titles); a completed call has its content parsed and re-resolved against
the catalog by bidirectional case-insensitive substring containment. -/
def screenLawsForRelevance (feature : Feature) (allLaws : List Law)
    (behavior : ModelBehavior) : List String :=
  match behavior with
  | .failure _ => allLaws.map (·.law_title)
  | .ok content =>
    let relevantLawTitles := parseRelevanceResponse content
    let relevantLaws := allLaws.filter (fun law =>
      relevantLawTitles.any (fun title =>
        strContains (lowerStr title) (lowerStr law.law_title) ||
        strContains (lowerStr law.law_title) (lowerStr title)))
    relevantLaws.map (·.law_title)

/-! ## Single-feature discovery endpoint
(`POST /compliance/check-feature` in `src/backend/src/routes/api.ts`) -/

/-- Summary returned by the zero-relevant-laws short circuit of the
endpoint. -/
def emptyCheckFeatureSummary (totalLaws : ℕ) : ComplianceSummary :=
  { total_features := 1
    total_laws := totalLaws
    relevant_laws := some 0
    compliant_count := 0
    non_compliant_count := 0
    review_required_count := 0
    overall_risk_score := 0 }

/-- Model of the `/compliance/check-feature` route body after input
validation: screen, short-circuit on an empty relevance set, otherwise
evaluate each relevant law with `include_corrections` and
`include_abbreviations` both true, count the statuses and compute the
weighted risk score `Math.round((non * 100 + review * 50) / relevant)`.
The second component is the list of laws for which the Pair Evaluator was
actually invoked. -/
def checkFeatureRoute (tempFeature : Feature) (allLaws : List Law)
    (store : List Correction) (screenBehavior : ModelBehavior)
    (pairBehavior : Law → ModelBehavior) : ComplianceCheckResponse × List Law :=
  let relevantLawTitles := screenLawsForRelevance tempFeature allLaws screenBehavior
  if relevantLawTitles.length = 0 then
    ({ results := [], summary := emptyCheckFeatureSummary allLaws.length }, [])
  else
    let relevantLaws := allLaws.filter (fun law => relevantLawTitles.contains law.law_title)
    let complianceRequest : ComplianceCheckRequest :=
      { features := none, laws := none
        include_abbreviations := true, include_corrections := true }
    let results := relevantLaws.map (fun law =>
      Checker004.checkFeatureCompliance tempFeature law complianceRequest store
        (pairBehavior law))
    let compliantCount := (results.filter (fun r => r.compliance_status == "compliant")).length
    let nonCompliantCount := (results.filter (fun r => r.compliance_status == "non-compliant")).length
    let reviewRequiredCount := (results.filter (fun r => r.compliance_status == "requires_review")).length
    let overallRiskScore :=
      roundRatio (nonCompliantCount * 100 + reviewRequiredCount * 50) relevantLaws.length
    ({ results := results
       summary :=
        { total_features := 1
          total_laws := allLaws.length
          relevant_laws := some relevantLaws.length
          compliant_count := compliantCount
          non_compliant_count := nonCompliantCount
          review_required_count := reviewRequiredCount
          overall_risk_score := overallRiskScore } }, relevantLaws)

/-! ## Catalog store (`DataHandler`, `src/unnamed/part_001`) -/

/-- Model of `getFeatureByName(featureName)`: first feature whose trimmed,
lower-cased name equals the trimmed, lower-cased argument. -/
def getFeatureByName (features : List Feature) (featureName : String) : Option Feature :=
  let normalizedName := trimJS featureName
  features.find? (fun feature =>
    lowerStr (trimJS feature.feature_name) == lowerStr normalizedName)

/-- Model of `addFeature(featureName, featureDescription)` over the
in-memory feature list. `writeSucceeds` is the outcome of the backing CSV
write; when it throws, the `catch` block filters the list by
`f.feature_name !== featureName` before returning `false`. Returns the
success flag and the resulting in-memory list. -/
def addFeature (features : List Feature) (featureName featureDescription : String)
    (writeSucceeds : Bool) : Bool × List Feature :=
  if featureName = "" ∨ featureDescription = "" then (false, features)
  else
    match getFeatureByName features featureName with
    | some _ => (false, features)
    | none =>
      let newFeature : Feature :=
        { feature_name := trimJS featureName
          feature_description := trimJS featureDescription }
      let features1 := features ++ [newFeature]
      if writeSucceeds then (true, features1)
      else (false, features1.filter (fun f => f.feature_name ≠ featureName))

/-! ## Concrete sample data used by witnesses and counterexamples -/

/-- Sample feature. -/
def sampleFeature : Feature :=
  { feature_name := "Age verification", feature_description := "Verify user age" }

/-- Sample law. -/
def sampleLaw : Law :=
  { index := "1", law_description := "EU data protection law"
    law_title := "GDPR", countryRegion := "EU" }

/-- Sample request with corrections disabled. -/
def sampleRequest : ComplianceCheckRequest :=
  { features := none, laws := none
    include_abbreviations := false, include_corrections := false }

/-- Sample request with corrections enabled. -/
def correctionsRequest : ComplianceCheckRequest :=
  { features := none, laws := none
    include_abbreviations := true, include_corrections := true }

/-- Sample implemented correction for the pair (sampleFeature, sampleLaw). -/
def implementedCorrection : Correction :=
  { id := "feedback_1", feature_id := "Age verification", law_id := "GDPR"
    feedback_type := "correction"
    message := "Treat under-16 accounts as minors", status := "implemented" }

/-- Sample pending correction for the same pair. -/
def pendingCorrection : Correction :=
  { id := "feedback_2", feature_id := "Age verification", law_id := "GDPR"
    feedback_type := "correction"
    message := "Pending note", status := "pending" }

/-- Model response with a valid JSON object carrying an out-of-enum status. -/
def invalidStatusResponse : String :=
  "\x7b\"compliance_status\":\"banana\",\"reasoning\":\"r\",\"recommendations\":[\"x\"]\x7d"

/-- Model response with a valid JSON object whose status is the underscore
spelling that the prompt itself requests. -/
def nonCompliantResponse : String :=
  "\x7b\"compliance_status\":\"non_compliant\",\"reasoning\":\"r\",\"recommendations\":[\"x\"]\x7d"

/-! ## Helper lemmas -/

/-- The first element surviving `dropWhile` fails the predicate. -/
theorem dropWhile_head_not {α} (p : α → Bool) :
    ∀ (l : List α) (c : α) (t : List α), l.dropWhile p = c :: t → p c = false := by
  intro l
  induction l with
  | nil => intro c t h; simp [List.dropWhile] at h
  | cons a l ih =>
    intro c t h
    rw [List.dropWhile_cons] at h
    by_cases hp : p a = true
    · rw [if_pos hp] at h
      exact ih c t h
    · rw [if_neg hp] at h
      cases h
      simpa using hp

/-- A list whose head fails the predicate is untouched by `dropWhile`. -/
theorem dropWhile_of_head_false {α} (p : α → Bool) {c : α} {t : List α}
    (h : p c = false) : (c :: t).dropWhile p = c :: t := by
  rw [List.dropWhile_cons, if_neg (by simp [h])]

/-- Applying `dropWhile` twice is the same as applying it once. -/
theorem dropWhile_idem {α} (p : α → Bool) (l : List α) :
    (l.dropWhile p).dropWhile p = l.dropWhile p := by
  cases hdw : l.dropWhile p with
  | nil => simp
  | cons c t => exact dropWhile_of_head_false p (dropWhile_head_not p l c t hdw)

/-- The two-sided list trim underlying `trimJS` is idempotent. -/
theorem trim_list_idem {α} (p : α → Bool) (l : List α) :
    (((((l.dropWhile p).reverse.dropWhile p).reverse).dropWhile p).reverse.dropWhile p).reverse =
      ((l.dropWhile p).reverse.dropWhile p).reverse := by
  set l1 := l.dropWhile p with hl1
  set t := (l1.reverse.dropWhile p).reverse with ht
  have h1 : t.dropWhile p = t := by
    cases hc : t with
    | nil => simp
    | cons c r =>
      have hsuf : l1.reverse.dropWhile p <:+ l1.reverse := List.dropWhile_suffix p
      have hpre : t <+: l1 := by
        have h2 : (l1.reverse.dropWhile p).reverse <+: l1.reverse.reverse :=
          List.reverse_prefix.mpr hsuf
        rwa [List.reverse_reverse] at h2
      obtain ⟨rest, hrest⟩ := hpre
      have hl1eq : l1 = c :: (r ++ rest) := by
        rw [← hrest, hc]; simp
      have hhead : p c = false := by
        refine dropWhile_head_not p l c (r ++ rest) ?_
        rw [← hl1]; exact hl1eq
      exact dropWhile_of_head_false p hhead
  have h2 : t.reverse.dropWhile p = t.reverse := by
    rw [ht, List.reverse_reverse]
    exact dropWhile_idem p _
  rw [h1, h2, List.reverse_reverse]

/-- The JavaScript trim model is idempotent. -/
theorem trimJS_idem (s : String) : trimJS (trimJS s) = trimJS s := by
  unfold trimJS
  exact congrArg String.mk (trim_list_idem jsWsChar s.data)

/-- Every member of a joined list is a substring of the join. -/
theorem mem_joinWith_substring {sep s : String} :
    ∀ {l : List String}, s ∈ l → s.data <:+: (joinWith sep l).data := by
  intro l
  induction l with
  | nil => intro h; simp at h
  | cons a rest ih =>
    intro h
    cases rest with
    | nil =>
      have hs : s = a := by simpa using h
      subst hs
      exact List.infix_rfl
    | cons b rest2 =>
      have hj : joinWith sep (a :: b :: rest2) = a ++ sep ++ joinWith sep (b :: rest2) := rfl
      rcases List.mem_cons.mp h with hsa | hrest
      · subst hsa
        rw [hj, String.data_append, String.data_append, List.append_assoc]
        exact (List.prefix_append _ _).isInfix
      · have hinf := ih hrest
        rw [hj, String.data_append, String.data_append]
        exact hinf.trans ((List.suffix_append _ _).isInfix)

/-- The coerced status is always drawn from `validStatuses` whenever that
list knows `requires_review`. -/
theorem coerceStatus_mem {vs : List String} (hrv : "requires_review" ∈ vs)
    (v : JsonValue) : coerceStatus vs v ∈ vs := by
  cases v with
  | str s =>
    have hcs : coerceStatus vs (.str s) =
        if vs.contains s then s else "requires_review" := rfl
    rw [hcs]
    by_cases hs : vs.contains s
    · have hmem : s ∈ vs := by
        rw [← List.elem_iff]
        exact hs
      rw [if_pos hs]
      exact hmem
    · rw [if_neg hs]
      exact hrv
  | null => exact hrv
  | bool b => exact hrv
  | num m e => exact hrv
  | arr xs => exact hrv
  | obj fs => exact hrv

/-- Every parsed verdict carries a status from `validStatuses`, provided
that list knows `requires_review`. -/
theorem parseCore_status_mem {vs : List String} (hrv : "requires_review" ∈ vs)
    (response : String) (f : Feature) (l : Law) :
    (parseGPTResponseCore vs response f l).compliance_status ∈ vs := by
  unfold parseGPTResponseCore
  split
  · exact coerceStatus_mem hrv _
  · exact hrv

/-- Every verdict of the evaluation pipeline carries a status from
`validStatuses`, provided that list knows `requires_review`. -/
theorem checkCore_status_mem {vs : List String} (hrv : "requires_review" ∈ vs)
    (f : Feature) (l : Law) (req : ComplianceCheckRequest) (store : List Correction)
    (b : ModelBehavior) :
    (checkFeatureComplianceCore vs f l req store b).compliance_status ∈ vs := by
  cases b with
  | failure msg => exact hrv
  | ok content => exact parseCore_status_mem hrv content f l

/-- Justification of `roundRatio`: it is the floor-based rounding of the
exact rational quotient, i.e. the idealization of `Math.round(num/den)`. -/
theorem roundRatio_eq_floor (num den : ℕ) (h : 0 < den) :
    roundRatio num den = ⌊(num : ℚ) / den + 1 / 2⌋ := by
  have hden : (0 : ℚ) < den := by exact_mod_cast h
  have h2den : (0 : ℚ) < 2 * den := by positivity
  have hq : (num : ℚ) / den + 1 / 2 = ((2 * num + den : ℕ) : ℚ) / ((2 * den : ℕ) : ℚ) := by
    push_cast
    field_simp
    ring
  rw [hq]
  set k : ℕ := (2 * num + den) / (2 * den) with hk
  have h2den' : 0 < 2 * den := by omega
  have hle : k * (2 * den) ≤ 2 * num + den := Nat.div_mul_le_self _ _
  have hlt : 2 * num + den < (k + 1) * (2 * den) := by
    have hmod := Nat.mod_lt (2 * num + den) h2den'
    calc 2 * num + den = 2 * den * k + (2 * num + den) % (2 * den) :=
          (Nat.div_add_mod _ _).symm
      _ < 2 * den * k + 2 * den := Nat.add_lt_add_left hmod _
      _ = (k + 1) * (2 * den) := by ring
  have hcast2 : ((2 * den : ℕ) : ℚ) = 2 * (den : ℚ) := by push_cast; ring
  have hrk : roundRatio num den = (k : ℤ) := rfl
  rw [hrk]
  symm
  rw [Int.floor_eq_iff]
  constructor
  · rw [le_div_iff₀ (by rw [hcast2]; positivity)]
    push_cast
    exact_mod_cast hle
  · rw [div_lt_iff₀ (by rw [hcast2]; positivity)]
    push_cast
    exact_mod_cast hlt

/-- An infix of a list is an infix of any right extension. -/
theorem infix_extend_right {α} {u v : List α} (h : u <:+: v) (y : List α) :
    u <:+: v ++ y :=
  h.trans ((List.prefix_append v y).isInfix)

/-- An infix of a list is an infix of any left extension. -/
theorem infix_extend_left {α} {u v : List α} (h : u <:+: v) (x : List α) :
    u <:+: x ++ v :=
  h.trans ((List.suffix_append x v).isInfix)

/-- String-level right extension of a substring fact. -/
theorem str_infix_extend_right {u v : String} (h : u.data <:+: v.data) (y : String) :
    u.data <:+: (v ++ y).data := by
  rw [String.data_append]
  exact infix_extend_right h _

/-- A string is a substring of any left extension of itself. -/
theorem str_infix_suffix (x u : String) : u.data <:+: (x ++ u).data := by
  rw [String.data_append]
  exact (List.suffix_append _ _).isInfix

/-- The corrections context passed to `buildCompliancePrompt` appears
verbatim inside the built prompt. -/
theorem ctx_infix_prompt (f : Feature) (l : Law) (ctx : String) :
    ctx.data <:+: (buildCompliancePrompt f l ctx).data := by
  unfold buildCompliancePrompt
  exact str_infix_extend_right (str_infix_extend_right (str_infix_extend_right
    (str_infix_extend_right (str_infix_extend_right (str_infix_extend_right
      (str_infix_extend_right (str_infix_extend_right (str_infix_extend_right
        (str_infix_extend_right (str_infix_extend_right (str_infix_suffix _ _)
          _) _) _) _) _) _) _) _) _) _) _

/-! ## Claims -/

/-- C10: for every variant of the `validStatuses` literal, every feature,
law, request, correction store and model behaviour (success, parse failure
or call failure — including responses whose JSON carries its own feature or
law fields), the verdict of `checkFeatureCompliance` keeps `feature_name`,
`law_title` and `law_description` equal to the inputs; the model response
never overrides them. -/
theorem c10_identity_fields_preserved (vs : List String) (f : Feature) (l : Law)
    (req : ComplianceCheckRequest) (store : List Correction) (b : ModelBehavior) :
    (checkFeatureComplianceCore vs f l req store b).feature_name = f.feature_name ∧
    (checkFeatureComplianceCore vs f l req store b).law_title = l.law_title ∧
    (checkFeatureComplianceCore vs f l req store b).law_description = l.law_description := by
  cases b with
  | failure msg => exact ⟨rfl, rfl, rfl⟩
  | ok content =>
    show (parseGPTResponseCore vs content f l).feature_name = f.feature_name ∧
      (parseGPTResponseCore vs content f l).law_title = l.law_title ∧
      (parseGPTResponseCore vs content f l).law_description = l.law_description
    unfold parseGPTResponseCore
    split
    · exact ⟨rfl, rfl, rfl⟩
    · exact ⟨rfl, rfl, rfl⟩

/-- C8: evaluating `addFeature` at the failing input — untrimmed name
`" X "`, a failing backing write, and an initially empty catalog — leaves
the just-added trimmed entry in memory: the rollback filter compares
`f.feature_name` with the untrimmed argument and therefore misses the
stored entry `"X"`, so the in-memory list does not return to its prior
(empty) state even though the call reports failure. -/
theorem c8_rollback_missed_eval :
    addFeature [] " X " "desc" false =
      (false, [{ feature_name := "X", feature_description := "desc" }]) ∧
    ([{ feature_name := "X", feature_description := "desc" }] : List Feature) ≠ [] := by
  exact ⟨rfl, by decide⟩

/-- C9 counterexample: with untrimmed inputs `" X "` / `" d "`, a
successful `addFeature` stores the trimmed pair, so the subsequent
`getFeatureByName " X "` returns `⟨"X", "d"⟩`, which is not a feature with
exactly the submitted name and description. -/
theorem c9_roundtrip_counterexample :
    addFeature [] " X " " d " true =
      (true, [{ feature_name := "X", feature_description := "d" }]) ∧
    getFeatureByName [{ feature_name := "X", feature_description := "d" }] " X " =
      some { feature_name := "X", feature_description := "d" } ∧
    ({ feature_name := "X", feature_description := "d" } : Feature) ≠
      { feature_name := " X ", feature_description := " d " } := by
  exact ⟨rfl, rfl, by decide⟩

/-- C9 (amended): after a successful `addFeature(name, desc)`,
`getFeatureByName name` returns the feature with the trimmed name and
trimmed description (hence exactly the submitted pair whenever the inputs
carry no surrounding whitespace); and any second `addFeature` whose name
matches the first one up to trimming and letter case fails and leaves the
catalog unchanged. -/
theorem c9_roundtrip_amended (features : List Feature) (name desc : String)
    (hok : (addFeature features name desc true).1 = true) :
    getFeatureByName (addFeature features name desc true).2 name =
      some { feature_name := trimJS name, feature_description := trimJS desc } ∧
    ∀ name2 desc2 w, lowerStr (trimJS name2) = lowerStr (trimJS name) →
      addFeature (addFeature features name desc true).2 name2 desc2 w =
        (false, (addFeature features name desc true).2) := by
  by_cases hval : name = "" ∨ desc = ""
  · exfalso
    simp [addFeature, hval] at hok
  · cases hfind : getFeatureByName features name with
    | some f0 =>
      exfalso
      simp [addFeature, hval, hfind] at hok
    | none =>
      have hstate : (addFeature features name desc true).2 =
          features ++ [{ feature_name := trimJS name, feature_description := trimJS desc }] := by
        simp [addFeature, hval, hfind]
      have hGF : ∀ (fs : List Feature) (nm : String), getFeatureByName fs nm =
          fs.find? (fun feature =>
            lowerStr (trimJS feature.feature_name) == lowerStr (trimJS nm)) :=
        fun _ _ => rfl
      have hnone : features.find?
          (fun feature => lowerStr (trimJS feature.feature_name) == lowerStr (trimJS name)) =
            none := by
        rw [← hGF]
        exact hfind
      constructor
      · rw [hstate, hGF, List.find?_append, hnone]
        have hpnew : (lowerStr (trimJS (trimJS name)) == lowerStr (trimJS name)) = true := by
          rw [trimJS_idem]
          simp
        simp [List.find?_cons, hpnew]
      · intro name2 desc2 w hlow
        rw [hstate]
        have hnone2 : features.find?
            (fun feature => lowerStr (trimJS feature.feature_name) == lowerStr (trimJS name2)) =
              none := by
          rw [List.find?_eq_none]
          intro a ha
          have h1 := List.find?_eq_none.mp hnone a ha
          simpa [hlow] using h1
        have hfind2 : getFeatureByName
            (features ++ [{ feature_name := trimJS name, feature_description := trimJS desc }])
            name2 =
            some { feature_name := trimJS name, feature_description := trimJS desc } := by
          rw [hGF, List.find?_append, hnone2]
          have hpnew : (lowerStr (trimJS (trimJS name)) == lowerStr (trimJS name2)) = true := by
            rw [trimJS_idem, hlow]
            simp
          simp [List.find?_cons, hpnew]
        by_cases h2 : name2 = "" ∨ desc2 = ""
        · simp [addFeature, h2]
        · simp [addFeature, h2, hfind2]

/-- C9 amended witness: concrete round trip plus a case-variant duplicate
rejection. -/
theorem c9_roundtrip_amended_witness :
    ((addFeature [] "Age verification" "Verify user age" true).1 = true) ∧
    (getFeatureByName (addFeature [] "Age verification" "Verify user age" true).2
        "Age verification" =
      some { feature_name := "Age verification", feature_description := "Verify user age" }) ∧
    (addFeature (addFeature [] "Age verification" "Verify user age" true).2
        "AGE VERIFICATION" "x" true =
      (false, (addFeature [] "Age verification" "Verify user age" true).2)) := by
  refine ⟨rfl, ?_, ?_⟩
  · exact (c9_roundtrip_amended [] "Age verification" "Verify user age" rfl).1
  · exact (c9_roundtrip_amended [] "Age verification" "Verify user age" rfl).2
      "AGE VERIFICATION" "x" true (by decide)

/-- C1 counterexample: a completed model call with garbled (non-JSON)
content does not return the claimed single fixed fallback — it returns the
distinct parse-failure verdict, whose reasoning differs both from the
error-fallback reasoning and from the reasoning text quoted by the claim. -/
theorem c1_single_fallback_counterexample :
    Checker004.checkFeatureCompliance sampleFeature sampleLaw sampleRequest []
        (.ok "The feature likely complies with GDPR.") =
      parseFallback sampleFeature sampleLaw ∧
    parseFallback sampleFeature sampleLaw ≠ errorFallback sampleFeature sampleLaw ∧
    (Checker004.checkFeatureCompliance sampleFeature sampleLaw sampleRequest []
        (.ok "The feature likely complies with GDPR.")).reasoning ≠
      JsonValue.str "error occurred, manual review required" := by
  refine ⟨by rfl, ?_, ?_⟩
  · intro h
    have h2 := congrArg ComplianceResult.reasoning h
    rw [show (parseFallback sampleFeature sampleLaw).reasoning =
          JsonValue.str "Response parsing failed. Manual review required." from rfl,
        show (errorFallback sampleFeature sampleLaw).reasoning =
          JsonValue.str "Error occurred during compliance check. Manual review required."
          from rfl] at h2
    exact absurd (JsonValue.str.inj h2) (by decide)
  · intro h
    have hred : (Checker004.checkFeatureCompliance sampleFeature sampleLaw sampleRequest []
          (.ok "The feature likely complies with GDPR.")).reasoning =
        JsonValue.str "Response parsing failed. Manual review required." := by rfl
    rw [hred] at h
    exact absurd (JsonValue.str.inj h) (by decide)

/-- C1 (amended): for either `validStatuses` variant and every feature,
law, request and correction store, the Pair Evaluator always returns a
verdict (it is a total function of the call outcome): a thrown model call
(network error or non-2xx status) returns exactly the fixed error-fallback
verdict, and a completed call whose content fails extraction (empty
content, no JSON object, unparseable JSON, or missing/falsy required
fields) returns exactly the fixed parse-failure verdict. -/
theorem c1_fallback_amended (vs : List String) (f : Feature) (l : Law)
    (req : ComplianceCheckRequest) (store : List Correction) :
    (∀ msg, checkFeatureComplianceCore vs f l req store (.failure msg) = errorFallback f l) ∧
    (∀ content, extractCandidate content = none →
      checkFeatureComplianceCore vs f l req store (.ok content) = parseFallback f l) := by
  constructor
  · intro msg
    rfl
  · intro content h
    show parseGPTResponseCore vs content f l = parseFallback f l
    unfold parseGPTResponseCore
    rw [h]

/-- C1 amended witness: the two fallback equations evaluated at concrete
inputs, with the extraction hypothesis discharged by computation. -/
theorem c1_fallback_amended_witness :
    extractCandidate "The feature likely complies with GDPR." = none ∧
    checkFeatureComplianceCore Checker004.validStatuses sampleFeature sampleLaw
        sampleRequest [] (.ok "The feature likely complies with GDPR.") =
      parseFallback sampleFeature sampleLaw ∧
    checkFeatureComplianceCore Checker004.validStatuses sampleFeature sampleLaw
        sampleRequest [] (.failure "ECONNREFUSED") =
      errorFallback sampleFeature sampleLaw := by
  refine ⟨by rfl, ?_, ?_⟩
  · exact (c1_fallback_amended Checker004.validStatuses sampleFeature sampleLaw
      sampleRequest []).2 "The feature likely complies with GDPR." (by rfl)
  · exact (c1_fallback_amended Checker004.validStatuses sampleFeature sampleLaw
      sampleRequest []).1 "ECONNREFUSED"

/-- C2: every verdict of the Pair Evaluator carries a status from the three
enumerated values — spelled `compliant` / `non_compliant` /
`requires_review` in `src/backend/src/services/complianceChecker.ts` and
`compliant` / `non-compliant` / `requires_review` in `src/unnamed/part_004`
— and, for any `validStatuses` list, a parsed response whose status string
is outside the list is coerced to `requires_review` before the verdict is
returned. -/
theorem c2_status_enum_invariant :
    (∀ (f : Feature) (l : Law) (req : ComplianceCheckRequest)
        (store : List Correction) (b : ModelBehavior),
      (CheckerBackend.checkFeatureCompliance f l req store b).compliance_status ∈
        ["compliant", "non_compliant", "requires_review"]) ∧
    (∀ (f : Feature) (l : Law) (req : ComplianceCheckRequest)
        (store : List Correction) (b : ModelBehavior),
      (Checker004.checkFeatureCompliance f l req store b).compliance_status ∈
        ["compliant", "non-compliant", "requires_review"]) ∧
    (∀ (vs : List String) (response : String) (f : Feature) (l : Law)
        (st re rc : JsonValue) (s : String),
      extractCandidate response = some (st, re, rc) → st = JsonValue.str s →
      ¬ s ∈ vs →
      (parseGPTResponseCore vs response f l).compliance_status = "requires_review") := by
  refine ⟨?_, ?_, ?_⟩
  · intro f l req store b
    exact checkCore_status_mem (by decide) f l req store b
  · intro f l req store b
    exact checkCore_status_mem (by decide) f l req store b
  · intro vs response f l st re rc s hE hst hmem
    subst hst
    have hc : vs.contains s = false := by
      rw [← Bool.not_eq_true]
      intro hct
      refine hmem ?_
      rw [← List.elem_iff]
      exact hct
    unfold parseGPTResponseCore
    rw [hE]
    show coerceStatus vs (JsonValue.str s) = "requires_review"
    have hcs : coerceStatus vs (JsonValue.str s) =
        if vs.contains s then s else "requires_review" := rfl
    rw [hcs, hc]
    rfl

/-- C2 witness: a parsed response carrying the out-of-enum status string
`banana` is coerced to `requires_review`. -/
theorem c2_status_enum_invariant_witness :
    extractCandidate invalidStatusResponse =
      some (JsonValue.str "banana", JsonValue.str "r", JsonValue.arr [JsonValue.str "x"]) ∧
    ¬ "banana" ∈ CheckerBackend.validStatuses ∧
    (parseGPTResponseCore CheckerBackend.validStatuses invalidStatusResponse
      sampleFeature sampleLaw).compliance_status = "requires_review" := by
  refine ⟨by rfl, by decide, ?_⟩
  exact c2_status_enum_invariant.2.2 CheckerBackend.validStatuses invalidStatusResponse
    sampleFeature sampleLaw (JsonValue.str "banana") (JsonValue.str "r")
    (JsonValue.arr [JsonValue.str "x"]) "banana" (by rfl) rfl (by decide)

/-- C3: a throwing model call makes the Relevance Screener fail open,
returning the titles of the whole input catalog unchanged and in order; a
completed call always yields a subset of the catalog titles (the result is
the title image of a filter over the catalog). -/
theorem c3_screener_fail_open_subset :
    (∀ (f : Feature) (laws : List Law) (msg : String),
      screenLawsForRelevance f laws (.failure msg) = laws.map Law.law_title) ∧
    (∀ (f : Feature) (laws : List Law) (content t : String),
      t ∈ screenLawsForRelevance f laws (.ok content) → t ∈ laws.map Law.law_title) := by
  constructor
  · intro f laws msg
    rfl
  · intro f laws content t ht
    have ht2 : t ∈ (laws.filter (fun law =>
        (parseRelevanceResponse content).any (fun title =>
          strContains (lowerStr title) (lowerStr law.law_title) ||
          strContains (lowerStr law.law_title) (lowerStr title)))).map Law.law_title := ht
    rcases List.mem_map.mp ht2 with ⟨law, hlaw, hrfl⟩
    exact List.mem_map.mpr ⟨law, List.mem_of_mem_filter hlaw, hrfl⟩

/-- C3 witness: the fail-open equation at a one-law catalog, and the subset
property applied to a successful screening that returns that law. -/
theorem c3_screener_fail_open_subset_witness :
    screenLawsForRelevance sampleFeature [sampleLaw] (.failure "timeout") = ["GDPR"] ∧
    "GDPR" ∈ screenLawsForRelevance sampleFeature [sampleLaw] (.ok "[\"GDPR\"]") ∧
    "GDPR" ∈ [sampleLaw].map Law.law_title := by
  refine ⟨?_, by decide, ?_⟩
  · exact c3_screener_fail_open_subset.1 sampleFeature [sampleLaw] "timeout"
  · exact c3_screener_fail_open_subset.2 sampleFeature [sampleLaw] "[\"GDPR\"]" "GDPR"
      (by decide)

/-- C6: with corrections enabled, the corrections consulted for a pair are
exactly the stored corrections whose `feature_id`/`law_id` keys match the
pair and whose status is `implemented`; each consulted correction has its
message text embedded verbatim in the constructed evaluation prompt; and a
stored correction whose status is `pending` or `reviewed` is never among
the consulted corrections, so its text is never injected. -/
theorem c6_implemented_corrections_in_prompt (store : List Correction) (f : Feature)
    (l : Law) (req : ComplianceCheckRequest) (hreq : req.include_corrections = true) :
    getCorrectionsForCompliance store f.feature_name l.law_title =
      store.filter (fun c =>
        c.feature_id == f.feature_name && c.law_id == l.law_title &&
          c.status == "implemented") ∧
    (∀ c ∈ getCorrectionsForCompliance store f.feature_name l.law_title,
      c.message.data <:+: (evaluationPrompt f l req store).data) ∧
    (∀ c ∈ store, c.status = "pending" ∨ c.status = "reviewed" →
      ¬ c ∈ getCorrectionsForCompliance store f.feature_name l.law_title) := by
  refine ⟨rfl, ?_, ?_⟩
  · intro c hc
    have hlen : 0 < (getCorrectionsForCompliance store f.feature_name l.law_title).length :=
      List.length_pos.mpr (List.ne_nil_of_mem hc)
    have hctx : correctionsContext req store f l =
        "\n\nPrevious corrections for this feature-law combination:\n" ++
          joinWith "\n"
            ((getCorrectionsForCompliance store f.feature_name l.law_title).map
              (fun c => "- " ++ c.message)) := by
      simp only [correctionsContext, hreq, if_true, hlen]
    have h1 : ("- " ++ c.message) ∈
        (getCorrectionsForCompliance store f.feature_name l.law_title).map
          (fun c => "- " ++ c.message) :=
      List.mem_map_of_mem _ hc
    have h2 : ("- " ++ c.message).data <:+:
        (joinWith "\n"
          ((getCorrectionsForCompliance store f.feature_name l.law_title).map
            (fun c => "- " ++ c.message))).data :=
      mem_joinWith_substring h1
    have h3 : c.message.data <:+: ("- " ++ c.message).data := by
      rw [String.data_append]
      exact (List.suffix_append _ _).isInfix
    have h4 := (h3.trans h2).trans (str_infix_suffix
      "\n\nPrevious corrections for this feature-law combination:\n" _)
    have h5 : (correctionsContext req store f l).data <:+:
        (evaluationPrompt f l req store).data :=
      ctx_infix_prompt f l (correctionsContext req store f l)
    rw [hctx] at h5
    exact h4.trans h5
  · intro c hcStore hstat hcIn
    have hp := (List.mem_filter.mp hcIn).2
    simp only [Bool.and_eq_true, beq_iff_eq] at hp
    rcases hstat with h | h <;> rw [h] at hp <;> simp at hp

/-- C6 witness: with one implemented and one pending correction stored for
the sample pair, the implemented message is a substring of the prompt and
the pending correction is not consulted. -/
theorem c6_implemented_corrections_in_prompt_witness :
    implementedCorrection.message.data <:+:
      (evaluationPrompt sampleFeature sampleLaw correctionsRequest
        [implementedCorrection, pendingCorrection]).data ∧
    ¬ pendingCorrection ∈ getCorrectionsForCompliance
        [implementedCorrection, pendingCorrection]
        sampleFeature.feature_name sampleLaw.law_title := by
  constructor
  · exact (c6_implemented_corrections_in_prompt
      [implementedCorrection, pendingCorrection] sampleFeature sampleLaw
      correctionsRequest rfl).2.1 implementedCorrection (by decide)
  · exact (c6_implemented_corrections_in_prompt
      [implementedCorrection, pendingCorrection] sampleFeature sampleLaw
      correctionsRequest rfl).2.2 pendingCorrection (by decide) (Or.inl rfl)

/-- C7: whenever the Relevance Screener returns no law titles, the
check-feature endpoint short-circuits: it returns the empty result list
with all counts and the risk score at zero, and the Pair Evaluator is
invoked for no law at all (the invocation list is empty), whatever the
pair-call behaviour would have been. -/
theorem c7_zero_relevant_short_circuit (f : Feature) (allLaws : List Law)
    (store : List Correction) (sb : ModelBehavior) (pb : Law → ModelBehavior)
    (h : screenLawsForRelevance f allLaws sb = []) :
    checkFeatureRoute f allLaws store sb pb =
      ({ results := [], summary := emptyCheckFeatureSummary allLaws.length }, []) := by
  unfold checkFeatureRoute
  rw [h]
  rfl

/-- C7 witness: a successful screening that parses to the empty relevance
set short-circuits a one-law catalog. -/
theorem c7_zero_relevant_short_circuit_witness :
    screenLawsForRelevance sampleFeature [sampleLaw] (.ok "[]") = [] ∧
    checkFeatureRoute sampleFeature [sampleLaw] [] (.ok "[]")
        (fun _ => .failure "ignored") =
      ({ results := [], summary := emptyCheckFeatureSummary 1 }, []) := by
  refine ⟨by rfl, ?_⟩
  exact c7_zero_relevant_short_circuit sampleFeature [sampleLaw] [] (.ok "[]")
    (fun _ => .failure "ignored") (by rfl)

/-- C4 counterexample: with one relevant law whose pair evaluation fails
(one `requires_review` verdict, `L = 0`, `M = 1`, `T = 1`), the endpoint
returns risk score 50 — the weighted formula — while the claimed formula
`round(100*(L+M)/T)` gives 100. -/
theorem c4_weighted_score_counterexample :
    (checkFeatureRoute sampleFeature [sampleLaw] [] (.failure "down")
        (fun _ => .failure "down")).1.summary.non_compliant_count = 0 ∧
    (checkFeatureRoute sampleFeature [sampleLaw] [] (.failure "down")
        (fun _ => .failure "down")).1.summary.review_required_count = 1 ∧
    (checkFeatureRoute sampleFeature [sampleLaw] [] (.failure "down")
        (fun _ => .failure "down")).1.results.length = 1 ∧
    (checkFeatureRoute sampleFeature [sampleLaw] [] (.failure "down")
        (fun _ => .failure "down")).1.summary.overall_risk_score = 50 ∧
    roundRatio (100 * (0 + 1)) 1 = 100 ∧
    (50 : ℤ) ≠ 100 := by
  exact ⟨by rfl, by rfl, by rfl, by rfl, by rfl, by decide⟩

/-- C4 (amended): in single-feature discovery mode, when the screener
returns no laws the endpoint short-circuits with risk score 0; otherwise,
with `L` non-compliant and `M` requires-review verdicts out of the `T`
evaluated pairs, the returned risk score is the weighted
`Math.round((L*100 + M*50) / T)`. -/
theorem c4_weighted_score_amended (f : Feature) (allLaws : List Law)
    (store : List Correction) (sb : ModelBehavior) (pb : Law → ModelBehavior) :
    (screenLawsForRelevance f allLaws sb = [] →
      (checkFeatureRoute f allLaws store sb pb).1.summary.overall_risk_score = 0) ∧
    (screenLawsForRelevance f allLaws sb ≠ [] →
      (checkFeatureRoute f allLaws store sb pb).1.summary.overall_risk_score =
        roundRatio
          ((checkFeatureRoute f allLaws store sb pb).1.summary.non_compliant_count * 100 +
            (checkFeatureRoute f allLaws store sb pb).1.summary.review_required_count * 50)
          (checkFeatureRoute f allLaws store sb pb).1.results.length) := by
  constructor
  · intro h
    unfold checkFeatureRoute
    rw [h]
    rfl
  · intro h
    have hlen : ¬ (screenLawsForRelevance f allLaws sb).length = 0 := by
      simpa [List.length_eq_zero] using h
    unfold checkFeatureRoute
    dsimp only
    rw [if_neg hlen]
    dsimp only
    rw [List.length_map]

/-- C4 amended witness: the weighted formula evaluated at the concrete
one-law, one-review outcome. -/
theorem c4_weighted_score_amended_witness :
    screenLawsForRelevance sampleFeature [sampleLaw] (.failure "down") ≠ [] ∧
    (checkFeatureRoute sampleFeature [sampleLaw] [] (.failure "down")
        (fun _ => .failure "down")).1.summary.overall_risk_score =
      roundRatio
        ((checkFeatureRoute sampleFeature [sampleLaw] [] (.failure "down")
            (fun _ => .failure "down")).1.summary.non_compliant_count * 100 +
          (checkFeatureRoute sampleFeature [sampleLaw] [] (.failure "down")
            (fun _ => .failure "down")).1.summary.review_required_count * 50)
        (checkFeatureRoute sampleFeature [sampleLaw] [] (.failure "down")
            (fun _ => .failure "down")).1.results.length := by
  refine ⟨by decide, ?_⟩
  exact (c4_weighted_score_amended sampleFeature [sampleLaw] [] (.failure "down")
    (fun _ => .failure "down")).2 (by decide)

/-- C5: evaluation of `CheckerBackend.checkCompliance` at the failing
input. The model answers with status `non_compliant` — the spelling this
very file prompts for and validates — so the produced verdict carries
`non_compliant`; but the counting `switch` matches the hyphen spelling
`non-compliant`, so the summary counts the verdict nowhere and reports risk
score 0, where the claimed `round(100*(L+M)/T)` with `L = 1`, `K = M = 0`,
`T = 1` gives 100. -/
theorem c5_hyphen_switch_mismatch_eval :
    (CheckerBackend.checkCompliance [sampleLaw] [sampleFeature] sampleRequest []
        (fun _ _ => .ok nonCompliantResponse)).map
      (fun resp =>
        (resp.results.map (fun r => r.compliance_status),
          resp.summary.compliant_count, resp.summary.non_compliant_count,
          resp.summary.review_required_count, resp.summary.overall_risk_score)) =
      Except.ok (["non_compliant"], 0, 0, 0, (0 : ℤ)) ∧
    roundRatio (100 * (0 + 1)) (0 + 1 + 0) = 100 := by
  exact ⟨by rfl, by rfl⟩

end RegZ
